import Mathlib

/-!
Verification development for the autofix-agent repository.

The repository consists of two Node.js scripts sharing one design:
the Issue-to-Patch agent (autofix) and the Diff-to-Review agent (PR review),
both in `src/agent/index.mjs`.  This file gives a shallow embedding of the
pure core of both pipelines: POSIX path resolution as used by
`path.resolve`, the change applier `applyChanges`, the bounded repository
listing `listRepoFiles`, the prompt builders, the completion-client request
construction and failure handling, and the tail of both `main` functions
(from the point where the LLM result is available).

Modelling conventions:
* The filesystem is a map `String → Option String` from absolute POSIX
  paths to file contents; directories (created by `mkdirSync`) are not
  tracked, only file writes are.
* Untrusted JSON fields are modelled with `Option`: a `ChangeItem.content`
  of `none` stands for any JSON value that is not a string (the code checks
  `typeof content !== "string"`); an absent string field is `none`.
* JavaScript string truthiness (`x || y`, `if (x)`) is modelled by
  `truthy` / `strOr`: `none` and the empty string are falsy.
* Machine strings are Lean `String`s; `path.sep` is `"/"` (the agent runs
  on a Linux CI runner).
-/

namespace Autofix

/-- Split a character list on a separator character, keeping empty groups
(`"a//b".split` gives `["a", "", "b"]`). -/
def splitOnChar (c : Char) : List Char → List (List Char)
  | [] => [[]]
  | x :: xs =>
    match splitOnChar c xs with
    | [] => [[]]
    | g :: gs => if x = c then [] :: g :: gs else (x :: g) :: gs

/-- String prefix test on the underlying character lists
(JavaScript `s.startsWith(pre)`). -/
def strStartsWith (s pre : String) : Bool :=
  pre.data.isPrefixOf s.data

/-- Split a path string on `"/"`, as a raw segment list (empty segments kept,
to be dropped by normalisation, exactly as the Node normalizeString helper does). -/
def splitPath (s : String) : List String :=
  (splitOnChar '/' s.data).map String.mk

/-- Normalise the segments of an absolute path: drop empty and `"."`
segments, let `".."` pop the previous segment (at the root, `".."` is
dropped), as the Node `path.posix` normalisation does for absolute paths. -/
def normalizeSegs (segs : List String) : List String :=
  segs.foldl (fun acc s =>
    if s = "" then acc
    else if s = "." then acc
    else if s = ".." then acc.dropLast
    else acc ++ [s]) []

/-- Render an absolute path from its normalised segment list. -/
def joinAbs (segs : List String) : String :=
  "/" ++ String.intercalate "/" segs

/-- The Node `path.resolve(root, p)` for an absolute `root`: an absolute `p`
is normalised on its own, a relative `p` is appended to `root` and the
whole is normalised (src/agent/index.mjs line 101). -/
def resolvePath (root p : String) : String :=
  if strStartsWith p "/" then joinAbs (normalizeSegs (splitPath p))
  else joinAbs (normalizeSegs (splitPath root ++ splitPath p))

/-- The Node `path.resolve(REPO_ROOT)` for an absolute `REPO_ROOT`: pure
normalisation (src/agent/index.mjs line 98, `rootReal`). -/
def realRoot (root : String) : String :=
  joinAbs (normalizeSegs (splitPath root))

/-- The containment check of `applyChanges` (src/agent/index.mjs line 102):
`full.startsWith(rootReal + path.sep) || full === rootReal`. -/
def insideRepo (rootReal full : String) : Bool :=
  strStartsWith full (rootReal ++ "/") || full == rootReal

/-- One proposed file change from the untrusted Completion Result:
`{ path, content }`.  `content = none` models any JSON value that is not a
string; a missing or null `path` is modelled by `""` (both are falsy under
the `!filePath` guard). -/
structure ChangeItem where
  path : String
  content : Option String
deriving DecidableEq, Repr

/-- Overwrite the file at `p` with content `c` (`fs.writeFileSync`,
unconditional overwrite). -/
def writeFile (fs : String → Option String) (p c : String) :
    String → Option String :=
  fun q => if q = p then some c else fs q

/-- The body of the `for` loop of `applyChanges`
(src/agent/index.mjs lines 99-108): skip items with a falsy path or a
non-string content, resolve the path, skip items outside the repository
root, otherwise write the file. -/
def applyStep (root rootReal : String) (fs : String → Option String)
    (it : ChangeItem) : String → Option String :=
  if it.path = "" then fs
  else
    match it.content with
    | none => fs
    | some c =>
      if insideRepo rootReal (resolvePath root it.path) then
        writeFile fs (resolvePath root it.path) c
      else fs

/-- `applyChanges(changes)` (src/agent/index.mjs lines 97-110), acting on a
filesystem map: fold the per-item step over the batch, with
`rootReal = path.resolve(REPO_ROOT)` computed once. -/
def applyChanges (root : String) (changes : List ChangeItem)
    (fs : String → Option String) : String → Option String :=
  changes.foldl (applyStep root (realRoot root)) fs

/-- An item is accepted by `applyChanges` when it passes the falsy-path
guard, the string-content guard and the containment check. -/
def accepts (root : String) (it : ChangeItem) : Bool :=
  !(it.path == "") && it.content.isSome &&
    insideRepo (realRoot root) (resolvePath root it.path)

/-- The content of the last accepted item of the batch that resolves to
path `p`, if any: the value `applyChanges` leaves at `p`. -/
def lastWrite (root : String) (changes : List ChangeItem) (p : String) :
    Option String :=
  changes.foldl
    (fun acc it =>
      if accepts root it && (resolvePath root it.path == p) then it.content
      else acc)
    none

/-- A directory entry as seen by `fs.readdirSync(dir, { withFileTypes: true })`:
either a plain file or a subdirectory with its own entries. -/
inductive FsEntry where
  | file (name : String)
  | dir (name : String) (children : List FsEntry)
deriving Repr

/-- The name of a directory entry (`e.name`). -/
def FsEntry.name : FsEntry → String
  | .file n => n
  | .dir n _ => n

/-- The skip list of `listRepoFiles` (src/agent/index.mjs line 27). -/
def excludedName (n : String) : Bool :=
  n == "node_modules" || n == ".git" || n == "dist" || n == "build"

/-- The relative name of an entry (src/agent/index.mjs line 28):
`prefix ? prefix + "/" + name : name`. -/
def relName (pref name : String) : String :=
  if pref = "" then name else pref ++ "/" ++ name

/-- The `for` loop of `listRepoFiles` (src/agent/index.mjs lines 26-36) with
the accumulated `files` array made explicit.  A file entry is pushed as its
relative name; a directory entry is expanded by a recursive call with a
fresh array and the remaining budget `maxFiles - files.length`; after every
push, the loop breaks once `files.length >= maxFiles`. -/
def listLoop : List FsEntry → String → Int → List String → List String
  | [], _, _, files => files
  | e :: rest, pref, maxFiles, files =>
    if excludedName e.name then listLoop rest pref maxFiles files
    else
      match e with
      | .file name =>
        if maxFiles ≤ ((files ++ [relName pref name]).length : Int) then
          files ++ [relName pref name]
        else listLoop rest pref maxFiles (files ++ [relName pref name])
      | .dir name children =>
        if maxFiles ≤
            ((files ++
                listLoop children (relName pref name)
                  (maxFiles - (files.length : Int)) []).length : Int) then
          files ++
            listLoop children (relName pref name)
              (maxFiles - (files.length : Int)) []
        else
          listLoop rest pref maxFiles
            (files ++
              listLoop children (relName pref name)
                (maxFiles - (files.length : Int)) [])
  termination_by entries _ _ _ => sizeOf entries

/-- `listRepoFiles(dir, prefix = "", maxFiles = 200)`
(src/agent/index.mjs lines 23-38), starting from an empty `files` array;
the caller in `main` passes `prefix = ""` and `maxFiles = 200`. -/
def listRepoFiles (entries : List FsEntry) (pref : String)
    (maxFiles : Int) : List String :=
  listLoop entries pref maxFiles []

/-- JavaScript string truthiness for an optional string field: `null`,
`undefined` (both modelled as `none`) and `""` are falsy. -/
def truthy : Option String → Bool
  | some s => !(s == "")
  | none => false

/-- JavaScript `x || d` for an optional string `x`: the default is taken
when `x` is absent or empty. -/
def strOr (o : Option String) (d : String) : String :=
  match o with
  | some s => if s == "" then d else s
  | none => d

/-- JavaScript `s.slice(0, n)`: the first `n` characters. -/
def jsSlice (s : String) (n : Nat) : String :=
  String.mk (s.data.take n)

/-- The Context Snapshot of the Issue-to-Patch pipeline: issue number,
title and body (from the environment, src/agent/index.mjs lines 13-15)
plus the bounded repository file listing. -/
structure IssueSnapshot where
  issueNumber : String
  title : String
  body : String
  fileList : List String
deriving DecidableEq, Repr

/-- The Context Snapshot of the Diff-to-Review pipeline: PR number, title,
body and raw diff text (src/agent/index.mjs lines 171-174). -/
structure PRSnapshot where
  prNumber : String
  title : String
  body : String
  diffText : String
deriving DecidableEq, Repr

/-- `buildPrompt(fileList)` of the Issue-to-Patch agent
(src/agent/index.mjs lines 40-68), with the environment-derived issue
fields taken from the snapshot.  The file list is truncated to 80 entries
and joined with `", "`; the template text is reproduced verbatim. -/
def buildPrompt (s : IssueSnapshot) : String :=
  "You are an expert developer. A GitHub issue was opened for this repo. Your job is to produce a minimal fix.\n\nIssue #"
  ++ s.issueNumber
  ++ "\nTitle: " ++ s.title
  ++ "\n\nDescription:\n" ++ s.body
  ++ "\n\nRelevant files in the repo (path only): "
  ++ String.intercalate ", " (s.fileList.take 80)
  ++ "\n\nRespond with a single JSON object and nothing else. No markdown, no code fence.\nUse this exact shape:\n\x7b\n  \"skip\": false,\n  \"reason\": null,\n  \"branch\": \"autofix/issue-"
  ++ s.issueNumber
  ++ "\",\n  \"commitMessage\": \"Fix: <short description> (#"
  ++ s.issueNumber
  ++ ")\",\n  \"changes\": [\n    \x7b \"path\": \"relative/path/from/repo/root\", \"content\": \"full file content as string\" \x7d\n  ]\n\x7d\n\nRules:\n- If you cannot determine a safe fix from the issue alone, set \"skip\": true and set \"reason\" to a short message for the user.\n- Only include files that need to be changed. \"path\" must be relative to repo root. Use \"content\" for the entire new file content.\n- commitMessage should reference the issue and be concise.\n- Keep changes minimal and match existing code style."

/-- `buildPrompt(diff)` of the Diff-to-Review agent
(src/agent/index.mjs lines 183-230), with the environment-derived PR
fields taken from the snapshot.  An empty PR body falls back to
`"(No description provided)"`; the diff is truncated to 15000
characters; the template text is reproduced verbatim. -/
def buildPromptReview (s : PRSnapshot) : String :=
  "You are an expert code reviewer. A pull request has been opened and you need to review it.\n\nPR #"
  ++ s.prNumber
  ++ "\nTitle: " ++ s.title
  ++ "\n\nDescription:\n" ++ strOr (some s.body) "(No description provided)"
  ++ "\n\nDiff:\n```diff\n" ++ jsSlice s.diffText 15000
  ++ "\n```\n\nAnalyze the changes and provide a constructive code review. Focus on:\n1. Code quality and best practices\n2. Potential bugs or edge cases\n3. Security concerns\n4. Performance implications\n5. Readability and maintainability\n6. Missing tests or documentation (if applicable)\n\nRespond with a single JSON object and nothing else. No markdown, no code fence.\nUse this exact shape:\n\x7b\n  \"summary\": \"A brief 1-2 sentence overall assessment\",\n  \"suggestions\": [\n    \x7b\n      \"file\": \"path/to/file.js\",\n      \"line\": 42,\n      \"severity\": \"suggestion|warning|critical\",\n      \"message\": \"Description of what could be improved and why\",\n      \"suggestedCode\": \"Optional: improved code snippet if applicable\"\n    \x7d\n  ],\n  \"approved\": true or false (true if changes look good overall, false if critical issues found)\n\x7d\n\nRules:\n- Be constructive and helpful, not nitpicky\n- Only include meaningful suggestions that add value\n- If the PR looks good, return an empty suggestions array and approved: true\n- Use \"critical\" severity sparingly, only for bugs or security issues\n- \"warning\" for potential issues or anti-patterns\n- \"suggestion\" for style improvements or minor enhancements\n- Line numbers should reference the new file line (after changes), use 0 if not applicable to a specific line\n- Keep suggestions concise but actionable"

/-- Substring search over character lists (helper for `strIncludes`). -/
def strIncludesAux (needle : List Char) : List Char → Bool
  | [] => needle.isPrefixOf []
  | c :: t => needle.isPrefixOf (c :: t) || strIncludesAux needle t

/-- JavaScript `s.includes(pat)`. -/
def strIncludes (s pat : String) : Bool :=
  strIncludesAux pat.data s.data

/-- `IS_AZURE = BASE_URL.includes("openai.azure.com")`
(src/agent/index.mjs line 19). -/
def IS_AZURE (baseURL : String) : Bool :=
  strIncludes baseURL "openai.azure.com"

/-- `BASE_URL.replace` with an empty replacement for a trailing slash: drop one trailing slash if present
(src/agent/index.mjs line 71). -/
def stripTrailingSlash (s : String) : String :=
  if s.data.getLast? = some '/' then String.mk s.data.dropLast else s

/-- The UTF-8 encoding of one character, as a byte list (values < 256). -/
def utf8Bytes (c : Char) : List Nat :=
  let n := c.toNat
  if n < 128 then [n]
  else if n < 2048 then [192 + n / 64, 128 + n % 64]
  else if n < 65536 then
    [224 + n / 4096, 128 + (n / 64) % 64, 128 + n % 64]
  else
    [240 + n / 262144, 128 + (n / 4096) % 64, 128 + (n / 64) % 64,
      128 + n % 64]

/-- Upper-case hexadecimal digit of a value below 16. -/
def hexDigitChar (n : Nat) : Char :=
  if n < 10 then Char.ofNat (48 + n) else Char.ofNat (55 + n)

/-- Percent-encode one byte as `%HH`. -/
def percentEncodeByte (b : Nat) : String :=
  "%" ++ String.mk [hexDigitChar (b / 16), hexDigitChar (b % 16)]

/-- The characters `encodeURIComponent` leaves unescaped:
`A-Z a-z 0-9 - _ . ! ~ * ( )` and the apostrophe (code 39). -/
def isUnreservedChar (c : Char) : Bool :=
  (65 ≤ c.toNat && c.toNat ≤ 90) || (97 ≤ c.toNat && c.toNat ≤ 122) ||
  (48 ≤ c.toNat && c.toNat ≤ 57) ||
  c.toNat == 45 || c.toNat == 95 || c.toNat == 46 || c.toNat == 33 ||
  c.toNat == 126 || c.toNat == 42 || c.toNat == 39 || c.toNat == 40 ||
  c.toNat == 41

/-- JavaScript `encodeURIComponent`: unreserved characters pass through,
everything else is percent-encoded byte by byte. -/
def encodeURIComponent (s : String) : String :=
  String.join (s.data.map (fun c =>
    if isUnreservedChar c then String.mk [c]
    else String.join ((utf8Bytes c).map percentEncodeByte)))

/-- The observable request parameters built by `callLLM`
(src/agent/index.mjs lines 71-76): the final URL and the header list.
The JSON body (model name, single user message, `response_format`,
`max_tokens`) carries no claim-relevant structure and is omitted. -/
structure LLMRequest where
  url : String
  headers : List (String × String)
deriving DecidableEq, Repr

/-- URL and header construction of `callLLM`
(src/agent/index.mjs lines 71-76): one trailing slash of the base URL is
dropped and `/chat/completions` appended; `?api-version=` is appended
whenever the API version is non-empty; the `api-key` header is used when
`IS_AZURE`, the bearer `Authorization` header otherwise. -/
def buildLLMRequest (baseURL apiVersion apiKey : String) : LLMRequest :=
  { url :=
      if apiVersion == "" then
        stripTrailingSlash baseURL ++ "/chat/completions"
      else
        stripTrailingSlash baseURL ++ "/chat/completions"
          ++ "?api-version=" ++ encodeURIComponent apiVersion,
    headers :=
      ("Content-Type", "application/json") ::
        (if IS_AZURE baseURL then [("api-key", apiKey)]
         else [("Authorization", "Bearer " ++ apiKey)]) }

/-- The parts of the HTTP response of the completion endpoint that `callLLM`
inspects: `res.ok`, `res.status`, the raw body text (read on failure) and
`data.choices?.[0]?.message?.content` (`none` when any link of that
optional chain is missing). -/
structure HttpResponse where
  ok : Bool
  status : Nat
  text : String
  content : Option String

/-- JavaScript whitespace stripped by `String.prototype.trim`
(restricted to the ASCII whitespace characters). -/
def isJsSpace (c : Char) : Bool :=
  c == ' ' || c == '\t' || c == '\n' || c == '\r'

/-- JavaScript `s.trim()`. -/
def jsTrim (s : String) : String :=
  String.mk (((s.data.dropWhile isJsSpace).reverse.dropWhile isJsSpace).reverse)

/-- Response handling of `callLLM` (src/agent/index.mjs lines 87-94):
a non-success status is a Transport Failure carrying the status and raw
body; a missing or (after trimming) empty message content is an Empty
Response Failure; otherwise the trimmed content is handed to `JSON.parse`,
abstracted as the `parse` argument, whose failure is the
Malformed JSON Failure. -/
def callLLM {α : Type} (resp : HttpResponse)
    (parse : String → Except String α) : Except String α :=
  if resp.ok = false then
    Except.error ("LLM API error " ++ toString resp.status ++ ": " ++ resp.text)
  else
    match resp.content with
    | none => Except.error "Empty LLM response"
    | some c =>
      if jsTrim c == "" then Except.error "Empty LLM response"
      else parse (jsTrim c)

/-- The Completion Result of the patch path, as far as the Result Applier
inspects it (src/agent/index.mjs lines 140-154).  `skip` models the
truthiness of the `skip` field; absent string fields are `none`; an absent
or non-array `changes` field is `none`. -/
structure PatchResult where
  skip : Bool
  reason : Option String
  branch : Option String
  commitMessage : Option String
  changes : Option (List ChangeItem)
deriving DecidableEq, Repr

/-- The Outcome Record of the patch path, written by `writeOutput` to
`autofix-output.json` (src/agent/index.mjs lines 112-116). -/
structure OutputRecord where
  branch : String
  commitMessage : String
  skip : Bool
  reason : Option String
deriving DecidableEq, Repr

/-- Observable outcome of one Issue-to-Patch run: the process exit status,
the Outcome Record (if one was written) and the final filesystem. -/
structure PatchRun where
  exitCode : Nat
  output : Option OutputRecord
  fs : String → Option String

/-- The tail of the Issue-to-Patch `main` (src/agent/index.mjs
lines 131-156), from the completion call on: a completion failure writes a
skipped Outcome Record with the failure message and exits 1; an explicit
skip with a truthy reason writes a skipped record and exits 0; an empty or
missing `changes` writes a skipped record with the default reason and
exits 0; otherwise the changes are applied and a non-skipped record with
defaulted branch and commit message is written. -/
def mainPatch (issueNumber root : String) (fs : String → Option String)
    (llm : Except String PatchResult) : PatchRun :=
  match llm with
  | Except.error msg =>
    { exitCode := 1,
      output := some
        { branch := "", commitMessage := "", skip := true, reason := some msg },
      fs := fs }
  | Except.ok result =>
    if result.skip && truthy result.reason then
      { exitCode := 0,
        output := some
          { branch := strOr result.branch "",
            commitMessage := strOr result.commitMessage "",
            skip := true, reason := result.reason },
        fs := fs }
    else
      if (result.changes.getD []).length == 0 then
        { exitCode := 0,
          output := some
            { branch := strOr result.branch "",
              commitMessage := strOr result.commitMessage "",
              skip := true, reason := some "No changes produced" },
          fs := fs }
      else
        { exitCode := 0,
          output := some
            { branch := strOr result.branch ("autofix/issue-" ++ issueNumber),
              commitMessage :=
                strOr result.commitMessage ("Fix (#" ++ issueNumber ++ ")"),
              skip := false, reason := none },
          fs := applyChanges root (result.changes.getD []) fs }

/-- One review suggestion from the untrusted review Completion Result
(src/agent/index.mjs lines 265-273). -/
structure Suggestion where
  file : String
  line : Int
  severity : String
  message : String
  suggestedCode : Option String
deriving DecidableEq, Repr

/-- The review Completion Result as far as the review path inspects it:
`summary`, optional `suggestions` array, optional `approved` flag.
`approved = none` models an absent field; any JSON value other than the
boolean `false` behaves like `some true` under the `!== false` test. -/
structure ReviewResult where
  summary : String
  suggestions : Option (List Suggestion)
  approved : Option Bool
deriving DecidableEq, Repr

/-- Severity marker of `formatReviewBody`
(src/agent/index.mjs line 266). -/
def severityIcon (sev : String) : String :=
  if sev == "critical" then "🔴"
  else if sev == "warning" then "🟡"
  else "💡"

/-- One suggestion block of `formatReviewBody`
(src/agent/index.mjs lines 266-272): marker, file, optional line number
(shown only when positive), message, optional suggestion code fence. -/
def formatSuggestion (s : Suggestion) : String :=
  severityIcon s.severity ++ " **" ++ s.file ++ "**"
  ++ (if 0 < s.line then " (line " ++ toString s.line ++ ")" else "")
  ++ "\n\n" ++ s.message ++ "\n\n"
  ++ (if truthy s.suggestedCode then
        "```suggestion\n" ++ (s.suggestedCode.getD "") ++ "\n```\n\n"
      else "")

/-- `formatReviewBody(result)` (src/agent/index.mjs lines 259-280). -/
def formatReviewBody (result : ReviewResult) : String :=
  "## 🤖 AI Code Review\n\n" ++ "**Summary:** " ++ result.summary ++ "\n\n"
  ++ (match result.suggestions with
      | some l =>
        if 0 < l.length then
          "### Suggestions\n\n" ++ String.join (l.map formatSuggestion)
        else "✅ No issues found. The changes look good!\n\n"
      | none => "✅ No issues found. The changes look good!\n\n")
  ++ "---\n*This review was generated automatically by the AI review agent.*"

/-- The Outcome Record of the review path, written by `writeOutput` to
`review-output.json` (src/agent/index.mjs lines 282-286). -/
structure ReviewOutput where
  review : ReviewResult
  body : String
  approved : Bool
deriving DecidableEq, Repr

/-- Observable outcome of one Diff-to-Review run: exit status and the
Outcome Record, if one was written. -/
structure ReviewRun where
  exitCode : Nat
  output : Option ReviewOutput
deriving DecidableEq, Repr

/-- The tail of the Diff-to-Review `main` (src/agent/index.mjs
lines 301-315), from the completion call on: a completion failure exits 1
without writing anything; otherwise the body is rendered, the approval
verdict is `result.approved !== false`, and the Outcome Record is
written. -/
def mainReview (llm : Except String ReviewResult) : ReviewRun :=
  match llm with
  | Except.error _ => { exitCode := 1, output := none }
  | Except.ok result =>
    { exitCode := 0,
      output := some
        { review := result,
          body := formatReviewBody result,
          approved := !(result.approved == some false) } }

example : resolvePath "/repo" "../../etc/passwd" = "/etc/passwd" := by decide
example : resolvePath "/repo" "a/../../b" = "/b" := by decide
example : resolvePath "/repo" "/etc/passwd" = "/etc/passwd" := by decide
example : resolvePath "/repo" "src/a.js" = "/repo/src/a.js" := by decide
example : insideRepo "/repo" "/etc/passwd" = false := by decide
example : insideRepo "/repo" "/repo/src/a.js" = true := by decide
example : insideRepo "/repo" "/repo2/x" = false := by decide

/-- Loop invariant of `listLoop`: if the accumulated array is strictly
below the budget on entry, the returned array never exceeds the budget.
The directory case relies on the recursive call receiving the remaining
budget `maxFiles - files.length`, which is positive under the invariant. -/
lemma listLoop_length_le (entries : List FsEntry) (pref : String)
    (maxFiles : Int) (files : List String) :
    (files.length : Int) < maxFiles →
    ((listLoop entries pref maxFiles files).length : Int) ≤ maxFiles := by
  induction entries, pref, maxFiles, files using listLoop.induct with
  | case1 pref maxFiles files =>
    intro h
    rw [listLoop.eq_def]
    exact le_of_lt h
  | case2 e rest pref maxFiles files hex ih =>
    intro h
    rw [listLoop.eq_def]
    cases e with
    | file name => simp only [if_pos hex]; exact ih h
    | dir name children => simp only [if_pos hex]; exact ih h
  | case3 rest pref maxFiles files name hstop hex =>
    intro h
    rw [listLoop.eq_def]
    simp only [if_neg hex, if_pos hstop]
    simp only [List.length_append, List.length_cons, List.length_nil]
    push_cast
    omega
  | case4 rest pref maxFiles files name hstop hex ih =>
    intro h
    rw [listLoop.eq_def]
    simp only [if_neg hex, if_neg hstop]
    apply ih
    simp only [not_le] at hstop
    exact hstop
  | case5 rest pref maxFiles files name children hstop hex ihc =>
    intro h
    rw [listLoop.eq_def]
    simp only [if_neg hex, if_pos hstop]
    have hinner :
        ((listLoop children (relName pref name)
            (maxFiles - (files.length : Int)) []).length : Int)
          ≤ maxFiles - (files.length : Int) := by
      apply ihc
      simp only [List.length_nil, Nat.cast_zero]
      omega
    simp only [List.length_append]
    push_cast
    omega
  | case6 rest pref maxFiles files name children hstop hex ihc ih =>
    intro h
    rw [listLoop.eq_def]
    simp only [if_neg hex, if_neg hstop]
    apply ih
    simp only [not_le] at hstop
    exact hstop

/-- A rejected item leaves the filesystem untouched. -/
lemma applyStep_not_accepted (root : String) (fs : String → Option String)
    (it : ChangeItem) (h : accepts root it = false) :
    applyStep root (realRoot root) fs it = fs := by
  unfold applyStep
  by_cases hp : it.path = ""
  · simp [hp]
  · cases hc : it.content with
    | none => simp [hp, hc]
    | some c =>
      simp only [accepts, hp, hc, Option.isSome_some, Bool.and_eq_false_imp,
        beq_iff_eq, Bool.not_eq_false, Bool.true_and, Bool.and_self] at h
      simp [hp, hc, h (by simp [hp])]

/-- Coupled fold: running the applier loop over a batch is observed at a
fixed path `p` through the last-accepted-write accumulator. -/
lemma applyChanges_loop_char (root p : String) :
    ∀ (l : List ChangeItem) (fs : String → Option String)
      (acc g : Option String),
      fs p = acc.elim g some →
      (l.foldl (applyStep root (realRoot root)) fs) p
        = (l.foldl
            (fun a it =>
              if accepts root it && (resolvePath root it.path == p) then
                it.content
              else a)
            acc).elim g some := by
  intro l
  induction l with
  | nil => intro fs acc g h; simpa using h
  | cons it rest ih =>
    intro fs acc g h
    simp only [List.foldl_cons]
    apply ih
    by_cases ha : accepts root it = true
    · have hne : ¬(it.path = "") := by
        intro hp
        simp [accepts, hp] at ha
      obtain ⟨c, hc⟩ : ∃ c, it.content = some c := by
        cases hcc : it.content with
        | none => simp [accepts, hcc] at ha
        | some c => exact ⟨c, rfl⟩
      have hin : insideRepo (realRoot root) (resolvePath root it.path) = true := by
        simp only [accepts, Bool.and_eq_true] at ha
        exact ha.2
      by_cases hpq : resolvePath root it.path = p
      · have hin2 : insideRepo (realRoot root) p = true := hpq ▸ hin
        simp [applyStep, hne, hc, hin, hin2, writeFile, hpq, ha]
      · have hqp : ¬(p = resolvePath root it.path) := fun hq => hpq hq.symm
        have hcond :
            (accepts root it && (resolvePath root it.path == p)) = false := by
          simp [hpq]
        simp only [applyStep, if_neg hne, hc, if_pos hin, writeFile, hcond,
          Bool.false_eq_true, if_false, if_neg hqp]
        exact h
    · have ha2 : accepts root it = false := by simpa using ha
      rw [applyStep_not_accepted root fs it ha2]
      simpa [ha2] using h

/-- `applyChanges` observed at a path `p` is the last accepted write to `p`,
falling back to the initial filesystem. -/
lemma applyChanges_eq_lastWrite (root : String) (changes : List ChangeItem)
    (fs : String → Option String) (p : String) :
    applyChanges root changes fs p = (lastWrite root changes p).elim (fs p) some := by
  exact applyChanges_loop_char root p changes fs none (fs p) rfl

/-- A fold whose step fixes every accumulator returns its start value. -/
lemma foldl_id_of_step_id {α β : Type} (f : β → α → β) (l : List α)
    (h : ∀ b a, f b a = b) : ∀ b, l.foldl f b = b := by
  induction l with
  | nil => intro b; rfl
  | cons x xs ih =>
    intro b
    rw [List.foldl_cons, h b x]
    exact ih b

/-- No accepted item can resolve to a path that fails the containment
check, so the last write at such a path is `none`. -/
lemma lastWrite_outside (root p : String)
    (h : insideRepo (realRoot root) p = false) (changes : List ChangeItem) :
    lastWrite root changes p = none := by
  have hstep : ∀ it : ChangeItem,
      (accepts root it && (resolvePath root it.path == p)) = false := by
    intro it
    by_cases hpq : resolvePath root it.path = p
    · have hout : insideRepo (realRoot root) (resolvePath root it.path) = false := by
        rw [hpq]; exact h
      simp [accepts, hout]
    · simp [hpq]
  unfold lastWrite
  exact foldl_id_of_step_id _ changes (fun b it => by simp [hstep it]) none

/-- Dropping the rejected items of a batch does not change the result of
`applyChanges`: the applier acts exactly through its accepted items. -/
lemma applyChanges_filter_accepted (root : String) :
    ∀ (l : List ChangeItem) (fs : String → Option String),
      applyChanges root (l.filter (accepts root)) fs = applyChanges root l fs := by
  intro l
  induction l with
  | nil => intro fs; rfl
  | cons it rest ih =>
    intro fs
    by_cases ha : accepts root it = true
    · simp only [List.filter_cons, ha, if_pos trivial, applyChanges,
        List.foldl_cons]
      exact ih (applyStep root (realRoot root) fs it)
    · have ha2 : accepts root it = false := by simpa using ha
      simp only [List.filter_cons, ha2, Bool.false_eq_true, if_false,
        applyChanges, List.foldl_cons,
        applyStep_not_accepted root fs it ha2]
      exact ih fs

/-- Claim C3 (amended): for every directory tree and every configured
maximum of at least 1, `listRepoFiles` returns at most that many relative
paths, for any tree shape, because the remaining budget is decremented
across recursive calls and the loop stops at every level once the budget
is reached.  (The unamended claim fails at a configured maximum of 0: the
loop pushes one entry before checking the bound.) -/
theorem listRepoFiles_length_le (entries : List FsEntry) (pref : String)
    (maxFiles : Int) (h : 1 ≤ maxFiles) :
    ((listRepoFiles entries pref maxFiles).length : Int) ≤ maxFiles := by
  unfold listRepoFiles
  apply listLoop_length_le
  simpa using h

/-- Witness for C3: a small mixed tree under the default budget of 200. -/
theorem listRepoFiles_length_le_witness :
    (1 : Int) ≤ 200 ∧
      ((listRepoFiles
          [FsEntry.dir "src" [FsEntry.file "a.js"], FsEntry.file "README.md"]
          "" 200).length : Int) ≤ 200 :=
  ⟨by decide,
    listRepoFiles_length_le
      [FsEntry.dir "src" [FsEntry.file "a.js"], FsEntry.file "README.md"]
      "" 200 (by decide)⟩

/-- Counterexample to C3 as stated: with a configured maximum of 0 and a
directory holding a single file, the loop pushes the file and only then
checks the bound, returning one path — more than the configured maximum. -/
theorem listRepoFiles_zero_budget_counterexample :
    listRepoFiles [FsEntry.file "a"] "" 0 = ["a"] ∧
      ¬ (((listRepoFiles [FsEntry.file "a"] "" 0).length : Int) ≤ 0) := by
  have hev : listRepoFiles [FsEntry.file "a"] "" 0 = ["a"] := by
    rw [listRepoFiles, listLoop.eq_def]
    simp only [excludedName, FsEntry.name, relName]
    decide
  refine ⟨hev, ?_⟩
  rw [hev]
  decide

/-- Claim C1: any Change Item whose resolved path fails the containment
check against the repository root is rejected by `applyChanges`: the
filesystem is unchanged at every path failing the check, the batch is not
aborted, and the result is exactly the application of the accepted items
of the batch. -/
theorem applyChanges_rejects_outside_root (root : String)
    (changes : List ChangeItem) (fs : String → Option String) (p : String)
    (h : insideRepo (realRoot root) p = false) :
    applyChanges root changes fs p = fs p ∧
      applyChanges root changes fs
        = applyChanges root (changes.filter (accepts root)) fs := by
  constructor
  · rw [applyChanges_eq_lastWrite, lastWrite_outside root p h changes]
    rfl
  · exact (applyChanges_filter_accepted root changes fs).symm

/-- Witness for C1: the batch from spec Scenario C, with a `../` escape
item; the file outside the root is not written. -/
theorem applyChanges_rejects_outside_root_witness :
    insideRepo (realRoot "/repo") "/etc/passwd" = false ∧
      applyChanges "/repo"
        [⟨"src/a.js", some "x"⟩, ⟨"../../etc/passwd", some "y"⟩]
        (fun _ => none) "/etc/passwd" = none :=
  ⟨by decide,
    (applyChanges_rejects_outside_root "/repo"
      [⟨"src/a.js", some "x"⟩, ⟨"../../etc/passwd", some "y"⟩]
      (fun _ => none) "/etc/passwd" (by decide)).1⟩

/-- Claim C8: applying the same batch twice yields the same filesystem as
applying it once, and the final content at any path is the last accepted
write to it (overwrite semantics), falling back to the prior content. -/
theorem applyChanges_idempotent (root : String) (changes : List ChangeItem)
    (fs : String → Option String) (p : String) :
    applyChanges root changes (applyChanges root changes fs) p
        = applyChanges root changes fs p ∧
      applyChanges root changes fs p
        = (lastWrite root changes p).elim (fs p) some := by
  refine ⟨?_, applyChanges_eq_lastWrite root changes fs p⟩
  rw [applyChanges_eq_lastWrite root changes (applyChanges root changes fs) p,
    applyChanges_eq_lastWrite root changes fs p]
  cases lastWrite root changes p with
  | none => rfl
  | some c => rfl

/-- Claim C10: an item with a falsy path or a non-string content is
silently skipped: `applyChanges` on the batch equals `applyChanges` on the
remaining items, with no filesystem mutation from the invalid item and no
abort (the function is total). -/
theorem applyChanges_skips_invalid_item (root : String) (it : ChangeItem)
    (rest : List ChangeItem) (fs : String → Option String)
    (h : it.path = "" ∨ it.content = none) :
    applyChanges root (it :: rest) fs = applyChanges root rest fs := by
  unfold applyChanges
  simp only [List.foldl_cons]
  have hstep : applyStep root (realRoot root) fs it = fs := by
    cases h with
    | inl hp => simp [applyStep, hp]
    | inr hc =>
      by_cases hp : it.path = ""
      · simp [applyStep, hp]
      · simp [applyStep, hp, hc]
  rw [hstep]

/-- Witness for C10: an item with an empty path and an item with a
non-string content are both skipped; the valid third item is applied. -/
theorem applyChanges_skips_invalid_item_witness :
    ((⟨"", some "x"⟩ : ChangeItem).path = "" ∨
        (⟨"", some "x"⟩ : ChangeItem).content = none) ∧
      applyChanges "/r" [⟨"", some "x"⟩, ⟨"a.txt", some "y"⟩]
          (fun _ => none)
        = applyChanges "/r" [⟨"a.txt", some "y"⟩] (fun _ => none) :=
  ⟨Or.inl rfl,
    applyChanges_skips_invalid_item "/r" ⟨"", some "x"⟩
      [⟨"a.txt", some "y"⟩] (fun _ => none) (Or.inl rfl)⟩

/-- Claim C7: the prompt builders are deterministic — equal snapshot
fields produce character-identical prompt strings, for both the
Issue-to-Patch and the Diff-to-Review pipeline (the truncation limits,
80 file entries and 15000 diff characters, are fixed in the builders). -/
theorem buildPrompt_deterministic (s1 s2 : IssueSnapshot) (t1 t2 : PRSnapshot)
    (h1 : s1.issueNumber = s2.issueNumber) (h2 : s1.title = s2.title)
    (h3 : s1.body = s2.body) (h4 : s1.fileList = s2.fileList)
    (h5 : t1.prNumber = t2.prNumber) (h6 : t1.title = t2.title)
    (h7 : t1.body = t2.body) (h8 : t1.diffText = t2.diffText) :
    buildPrompt s1 = buildPrompt s2 ∧
      buildPromptReview t1 = buildPromptReview t2 := by
  obtain ⟨a1, b1, c1, d1⟩ := s1
  obtain ⟨a2, b2, c2, d2⟩ := s2
  obtain ⟨e1, f1, g1, k1⟩ := t1
  obtain ⟨e2, f2, g2, k2⟩ := t2
  simp only at h1 h2 h3 h4 h5 h6 h7 h8
  subst h1 h2 h3 h4 h5 h6 h7 h8
  exact ⟨rfl, rfl⟩

/-- Witness for C7: two runs on the same concrete snapshots. -/
theorem buildPrompt_deterministic_witness :
    buildPrompt ⟨"7", "bug", "it crashes", ["src/a.js"]⟩
        = buildPrompt ⟨"7", "bug", "it crashes", ["src/a.js"]⟩ ∧
      buildPromptReview ⟨"3", "feat", "", "diff text"⟩
        = buildPromptReview ⟨"3", "feat", "", "diff text"⟩ :=
  buildPrompt_deterministic
    ⟨"7", "bug", "it crashes", ["src/a.js"]⟩
    ⟨"7", "bug", "it crashes", ["src/a.js"]⟩
    ⟨"3", "feat", "", "diff text"⟩ ⟨"3", "feat", "", "diff text"⟩
    rfl rfl rfl rfl rfl rfl rfl rfl

/-- Claim C4: on an explicit skip (truthy `skip`, non-empty `reason`) the
patch path writes an Outcome Record with `skip = true` and exactly that
reason, leaves the filesystem untouched, and exits 0. -/
theorem mainPatch_explicit_skip (issueNumber root : String)
    (fs : String → Option String) (result : PatchResult) (s : String)
    (h1 : result.skip = true) (h2 : result.reason = some s)
    (h3 : ¬(s = "")) :
    mainPatch issueNumber root fs (Except.ok result)
      = { exitCode := 0,
          output := some
            { branch := strOr result.branch "",
              commitMessage := strOr result.commitMessage "",
              skip := true, reason := some s },
          fs := fs } := by
  unfold mainPatch
  simp [h1, h2, truthy, h3]

/-- Witness for C4: spec Scenario B, reason `"not enough context"`. -/
theorem mainPatch_explicit_skip_witness :
    ((⟨true, some "not enough context", none, none, none⟩ :
          PatchResult).skip = true ∧
        ¬("not enough context" = "")) ∧
      mainPatch "7" "/repo" (fun _ => none)
          (Except.ok ⟨true, some "not enough context", none, none, none⟩)
        = { exitCode := 0,
            output := some
              { branch := "", commitMessage := "",
                skip := true, reason := some "not enough context" },
            fs := fun _ => none } :=
  ⟨⟨rfl, by decide⟩,
    mainPatch_explicit_skip "7" "/repo" (fun _ => none)
      ⟨true, some "not enough context", none, none, none⟩
      "not enough context" rfl rfl (by decide)⟩

/-- Counterexample to C6 as stated: the default reason the code writes is
`"No changes produced"` (capital N), not `"no changes produced"`. -/
theorem mainPatch_no_changes_counterexample :
    (mainPatch "7" "/repo" (fun _ => none)
          (Except.ok ⟨false, none, none, none, some []⟩)).output
        = some { branch := "", commitMessage := "",
                 skip := true, reason := some "No changes produced" } ∧
      ¬ ((mainPatch "7" "/repo" (fun _ => none)
            (Except.ok ⟨false, none, none, none, some []⟩)).output
          = some { branch := "", commitMessage := "",
                   skip := true, reason := some "no changes produced" }) := by
  constructor
  · rfl
  · intro hcontra
    rw [show (mainPatch "7" "/repo" (fun _ => none)
          (Except.ok ⟨false, none, none, none, some []⟩)).output
        = some { branch := "", commitMessage := "",
                 skip := true, reason := some "No changes produced" } from rfl]
      at hcontra
    simp only [Option.some.injEq, OutputRecord.mk.injEq] at hcontra
    exact absurd hcontra.2.2.2 (by decide)

/-- Claim C6 (amended): when the explicit-skip branch does not fire and
`changes` is missing or empty, the patch path does not crash: it writes an
Outcome Record with `skip = true` and the default reason
`"No changes produced"` (capital N — the claim quoted it lowercase),
applies nothing, and exits 0. -/
theorem mainPatch_no_changes_skip (issueNumber root : String)
    (fs : String → Option String) (result : PatchResult)
    (h1 : (result.skip && truthy result.reason) = false)
    (h2 : result.changes = none ∨ result.changes = some []) :
    mainPatch issueNumber root fs (Except.ok result)
      = { exitCode := 0,
          output := some
            { branch := strOr result.branch "",
              commitMessage := strOr result.commitMessage "",
              skip := true, reason := some "No changes produced" },
          fs := fs } := by
  have hch : result.changes.getD [] = [] := by
    cases h2 with
    | inl h => rw [h]; rfl
    | inr h => rw [h]; rfl
  unfold mainPatch
  simp [h1, hch]

/-- Witness for C6: a result with `changes` missing entirely. -/
theorem mainPatch_no_changes_skip_witness :
    ((⟨false, none, none, none, none⟩ : PatchResult).changes = none ∨
        (⟨false, none, none, none, none⟩ : PatchResult).changes = some []) ∧
      mainPatch "7" "/repo" (fun _ => none)
          (Except.ok ⟨false, none, none, none, none⟩)
        = { exitCode := 0,
            output := some
              { branch := "", commitMessage := "",
                skip := true, reason := some "No changes produced" },
            fs := fun _ => none } :=
  ⟨Or.inl rfl,
    mainPatch_no_changes_skip "7" "/repo" (fun _ => none)
      ⟨false, none, none, none, none⟩ rfl (Or.inl rfl)⟩

/-- Counterexample to C2 as stated: in the Diff-to-Review pipeline a
completion failure exits 1 without writing any Outcome Record. -/
theorem mainReview_failure_counterexample :
    (mainReview (Except.error "LLM API error 500: boom")).output = none ∧
      (mainReview (Except.error "LLM API error 500: boom")).exitCode = 1 :=
  ⟨rfl, rfl⟩

/-- Claim C2 (amended): when the Completion Client fails (Transport, Empty
Response or Malformed JSON failure), the Issue-to-Patch pipeline exits 1
and still writes an Outcome Record with `skip = true` and the failure
message as reason, touching no file; the Diff-to-Review pipeline exits 1
without writing an Outcome Record. -/
theorem llm_failure_outcomes (resp resp2 : HttpResponse)
    (parse : String → Except String PatchResult)
    (parse2 : String → Except String ReviewResult)
    (msg msg2 issueNumber root : String) (fs : String → Option String)
    (h : callLLM resp parse = Except.error msg)
    (h2 : callLLM resp2 parse2 = Except.error msg2) :
    (mainPatch issueNumber root fs (callLLM resp parse)).exitCode = 1 ∧
      (mainPatch issueNumber root fs (callLLM resp parse)).output
        = some { branch := "", commitMessage := "",
                 skip := true, reason := some msg } ∧
      (mainPatch issueNumber root fs (callLLM resp parse)).fs = fs ∧
      (mainReview (callLLM resp2 parse2)).exitCode = 1 ∧
      (mainReview (callLLM resp2 parse2)).output = none := by
  rw [h, h2]
  exact ⟨rfl, rfl, rfl, rfl, rfl⟩

/-- Witness for C2: an HTTP 500 Transport Failure on the patch path and an
Empty Response Failure on the review path. -/
theorem llm_failure_outcomes_witness :
    callLLM (HttpResponse.mk false 500 "boom" none)
        (fun _ => (Except.error "p" : Except String PatchResult))
      = Except.error "LLM API error 500: boom" ∧
      (mainPatch "7" "/repo" (fun _ => none)
          (callLLM (HttpResponse.mk false 500 "boom" none)
            (fun _ => (Except.error "p" : Except String PatchResult)))).output
        = some { branch := "", commitMessage := "",
                 skip := true, reason := some "LLM API error 500: boom" } ∧
      (mainReview (callLLM (HttpResponse.mk true 200 "" none)
          (fun _ => (Except.error "q" : Except String ReviewResult)))).output
        = none := by
  refine ⟨rfl, ?_, ?_⟩
  · exact (llm_failure_outcomes (HttpResponse.mk false 500 "boom" none)
      (HttpResponse.mk true 200 "" none)
      (fun _ => (Except.error "p" : Except String PatchResult))
      (fun _ => (Except.error "q" : Except String ReviewResult))
      "LLM API error 500: boom" "Empty LLM response" "7" "/repo"
      (fun _ => none) rfl rfl).2.1
  · exact (llm_failure_outcomes (HttpResponse.mk false 500 "boom" none)
      (HttpResponse.mk true 200 "" none)
      (fun _ => (Except.error "p" : Except String PatchResult))
      (fun _ => (Except.error "q" : Except String ReviewResult))
      "LLM API error 500: boom" "Empty LLM response" "7" "/repo"
      (fun _ => none) rfl rfl).2.2.2.2

/-- Claim C9: the `approved` field of the review Outcome Record is
`result.approved !== false`: it defaults to true when the field is absent
and is false exactly when the result contains `approved` explicitly equal
to `false`. -/
theorem mainReview_approved_verdict (r : ReviewResult) :
    (mainReview (Except.ok r)).output
      = some { review := r, body := formatReviewBody r,
               approved := !(r.approved == some false) } ∧
      ((!(r.approved == some false)) = false ↔ r.approved = some false) := by
  refine ⟨rfl, ?_⟩
  cases h : r.approved with
  | none => simp
  | some b => cases b <;> simp

/-- Counterexample to C5 as stated: for a non-Azure base URL with an API
version supplied, the code still appends the `api-version` query
parameter while using bearer authorization — the Azure query-parameter
behaviour is not tied to the Azure host pattern. -/
theorem buildLLMRequest_counterexample :
    IS_AZURE "https://api.openai.com/v1" = false ∧
      buildLLMRequest "https://api.openai.com/v1" "2024-02-01" "k"
        = { url :=
              "https://api.openai.com/v1/chat/completions?api-version=2024-02-01",
            headers :=
              [("Content-Type", "application/json"),
                ("Authorization", "Bearer k")] } := by
  constructor
  · decide
  · decide

/-- Claim C5 (amended): the authorization scheme is selected once from the
base URL — the plain `api-key` header exactly when the base URL contains
the Azure OpenAI pattern, the bearer `Authorization` header otherwise —
while the `api-version` query parameter is appended whenever a non-empty
API version is supplied, regardless of the variant. -/
theorem buildLLMRequest_scheme (baseURL apiVersion apiKey : String) :
    (("api-key", apiKey) ∈ (buildLLMRequest baseURL apiVersion apiKey).headers
        ↔ IS_AZURE baseURL = true) ∧
      (("Authorization", "Bearer " ++ apiKey)
          ∈ (buildLLMRequest baseURL apiVersion apiKey).headers
        ↔ IS_AZURE baseURL = false) ∧
      ((apiVersion = "" ∧
          (buildLLMRequest baseURL apiVersion apiKey).url
            = stripTrailingSlash baseURL ++ "/chat/completions") ∨
        (¬(apiVersion = "") ∧
          (buildLLMRequest baseURL apiVersion apiKey).url
            = stripTrailingSlash baseURL ++ "/chat/completions"
                ++ "?api-version=" ++ encodeURIComponent apiVersion)) := by
  have hauth : ("Authorization" : String) ≠ "Content-Type" := by decide
  have hapi : ("api-key" : String) ≠ "Content-Type" := by decide
  have haa : ("api-key" : String) ≠ "Authorization" := by decide
  have haa2 : ("Authorization" : String) ≠ "api-key" := by decide
  refine ⟨?_, ?_, ?_⟩
  · by_cases haz : IS_AZURE baseURL = true
    · simp [buildLLMRequest, haz]
    · simp only [Bool.not_eq_true] at haz
      simp [buildLLMRequest, haz, Prod.ext_iff, hapi, haa2]
  · by_cases haz : IS_AZURE baseURL = true
    · simp [buildLLMRequest, haz, Prod.ext_iff, hauth, haa]
    · simp only [Bool.not_eq_true] at haz
      simp [buildLLMRequest, haz]
  · by_cases hv : apiVersion = ""
    · exact Or.inl ⟨hv, by simp [buildLLMRequest, hv]⟩
    · exact Or.inr ⟨hv, by simp [buildLLMRequest, hv]⟩

end Autofix
